import Mathlib

/-!
# Verification of the NFT-Appraisal live-event stream reducer

Shallow embedding of the SSE stream reducer implemented in
`src/Web App/nft-appraisal/src/app/ConsensusAnimation.tsx`.

The component keeps five pieces of React state — the node list, the
connection (edge) list, the log list, the statistics record and the
current-stage label — plus a ref to the live `EventSource`.  Each SSE
event label has a listener that mutates this state; we embed the state as
a structure `AppState`, each listener as a case of a pure step function
`applyEvent`, and the `EventSource` dispatch discipline (a closed source
delivers no events) as a guard `deliver` keyed by a connection handle.
JavaScript numbers are modelled as exact rationals (`ℚ`); the reducer only
stores, compares against zero, and formats them, so no floating-point
behaviour is load-bearing.  `console.error` calls made by the catch blocks
are modelled as an explicit list of error-severity console entries
returned next to the new state.
-/

namespace ConsensusAnimation

/-- Severity tag of a log entry, from the `LogEntry` type literal
`"info" | "error" | "warning" | "success"`. -/
inductive LogType where
  | info
  | error
  | warning
  | success
deriving DecidableEq, Repr

/-- One entry of the process log (`type LogEntry`). -/
structure LogEntry where
  message : String
  type : LogType
  timestamp : String
deriving DecidableEq, Repr

/-- A topology node (`type Node`): identity, fixed position, activation
flag and an optional numeric value (absent = "no data yet"). -/
structure Node where
  id : String
  x : ℚ
  y : ℚ
  active : Bool
  value : Option ℚ := none
deriving DecidableEq, Repr

/-- A directed edge (`type Connection`). -/
structure Connection where
  «from» : String
  «to» : String
  active : Bool
  value : Option ℚ := none
deriving DecidableEq, Repr

/-- The statistics accumulator (`type StreamStats`): every field optional,
absent meaning "not yet known". The terminal result is the object stored
by the `final_result` listener, of which the view reads only `price`. -/
structure FinalResult where
  price : Option ℚ := none
deriving DecidableEq, Repr

/-- Running statistics (`type StreamStats`). -/
structure StreamStats where
  aggregatedPrice : Option ℚ := none
  standardDeviation : Option ℚ := none
  confidence : Option ℚ := none
  finalResult : Option FinalResult := none
deriving DecidableEq, Repr

/-- A `console.error` emission from a catch block: severity plus message. -/
structure ConsoleEntry where
  severity : LogType
  message : String
deriving DecidableEq, Repr

/-- The component's whole mutable state.  `conn` holds the handle of the
live `EventSource` when one is open (`eventSourceRef.current`), `none`
after `close()`. -/
structure AppState where
  nodes : List Node
  connections : List Connection
  logs : List LogEntry
  stats : StreamStats
  currentStage : String
  conn : Option Nat
deriving DecidableEq, Repr

/-- The initial `useState` node list: three LLM nodes and the aggregator. -/
def initialNodes : List Node :=
  [ { id := "llm1", x := 75, y := 50, active := false },
    { id := "llm2", x := 150, y := 50, active := false },
    { id := "llm3", x := 225, y := 50, active := false },
    { id := "aggregator", x := 150, y := 200, active := false } ]

/-- The initial `useState` connection list: each LLM feeds the aggregator. -/
def initialConnections : List Connection :=
  [ { «from» := "llm1", «to» := "aggregator", active := false },
    { «from» := "llm2", «to» := "aggregator", active := false },
    { «from» := "llm3", «to» := "aggregator", active := false } ]

/-- State before any session: empty logs and stats, stage `"idle"`,
no open connection. -/
def initialState : AppState :=
  { nodes := initialNodes
    connections := initialConnections
    logs := []
    stats := {}
    currentStage := "idle"
    conn := none }

/-- The `addLog` helper: prepend the new entry and keep only the 20 most
recent entries (`[entry, ...prev.slice(0, 19)]`). -/
def addLog (message : String) (type : LogType) (ts : String)
    (prev : List LogEntry) : List LogEntry :=
  { message := message, type := type, timestamp := ts } :: prev.take 19

/-- Decoded payload of a `stage` event (`data.data` may lack either field). -/
structure StagePayload where
  name : Option String := none
  description : Option String := none
deriving DecidableEq, Repr

/-- Decoded payload of the two statistics events. -/
structure StatsPayload where
  aggregated_price : Option ℚ := none
  standard_deviation : Option ℚ := none
  confidence : Option ℚ := none
deriving DecidableEq, Repr

/-- Decoded payload of a `log` event. -/
structure LogPayload where
  message : Option String := none
  color : Option String := none
deriving DecidableEq, Repr

/-- Decoded payload of an `error` event. -/
structure ErrorPayload where
  message : Option String := none
deriving DecidableEq, Repr

/-- A wire event after the decode step.  For every listener that begins
with `JSON.parse`, the payload is an `Option`: `none` models a malformed
(unparseable) payload, i.e. `JSON.parse` throwing inside the listener's
`try` block.  `connect` and `process_end` listeners read no payload.
`model_responses` carries `Object.entries(responses)` in iteration
(insertion) order. -/
inductive RawEvent where
  | connect
  | stage (payload : Option StagePayload)
  | model_responses (payload : Option (List (String × String)))
  | initial_statistics (payload : Option StatsPayload)
  | final_statistics (payload : Option StatsPayload)
  | final_result (payload : Option FinalResult)
  | log (payload : Option LogPayload)
  | error (payload : Option ErrorPayload)
  | process_end
deriving DecidableEq, Repr

/-- Substring containment on character lists, embedding
`String.prototype.includes`. -/
def listIncludes (pat : List Char) : List Char → Bool
  | [] => pat.isEmpty
  | c :: rest => pat.isPrefixOf (c :: rest) || listIncludes pat rest

/-- JavaScript `s.includes(pat)`. -/
def jsIncludes (s pat : String) : Bool :=
  listIncludes pat.data s.data

/-- Value of a digit run (most significant first), as `parseFloat` reads it. -/
def digitsToNat (ds : List Char) : Nat :=
  ds.foldl (fun a c => 10 * a + (c.toNat - 48)) 0

/-- The rational denoted by integer digits `ip` and fractional digits `fp`. -/
def numFromDigits (ip fp : List Char) : ℚ :=
  (digitsToNat ip : ℚ) + (digitsToNat fp : ℚ) / ((10 : ℚ) ^ fp.length)

/-- Greedy match of `\d+(\.\d+)?` starting at the head of `cs` (the head is
known to be a digit): the integer digits and the fractional digits (empty
when the optional group does not match). -/
def matchNumAt (cs : List Char) : List Char × List Char :=
  let ip := cs.takeWhile Char.isDigit
  let rest := cs.dropWhile Char.isDigit
  match rest with
  | '.' :: r2 =>
    let fp := r2.takeWhile Char.isDigit
    if fp = [] then (ip, []) else (ip, fp)
  | _ => (ip, [])

/-- First match of the regex `/(\d+(\.\d+)?)/` over the characters,
already parsed by `parseFloat` into an exact rational. -/
def firstNumber : List Char → Option ℚ
  | [] => none
  | c :: rest =>
    if c.isDigit then
      some (numFromDigits (matchNumAt (c :: rest)).1 (matchNumAt (c :: rest)).2)
    else firstNumber rest

/-- The numeric-extraction policy applied to one model response:
`responseStr.match(/(\d+(\.\d+)?)/)` followed by `parseFloat`. -/
def extractPrice (s : String) : Option ℚ :=
  firstNumber s.data

/-- One iteration of the `model_responses` loop, on the accumulator pair
(running `nodeUpdates` record, 1-based `index`): a response whose text
yields a numeric match while `index <= 3` assigns `llm${index}` and
advances the index, every other response is skipped. -/
def foldStep (acc : List (String × ℚ) × Nat) (pr : String × String) :
    List (String × ℚ) × Nat :=
  match extractPrice pr.2 with
  | some p => if acc.2 ≤ 3 then (acc.1 ++ [("llm" ++ toString acc.2, p)], acc.2 + 1) else acc
  | none => acc

/-- The `model_responses` accumulation loop over all responses in
encounter order, starting from an empty record and `index = 1`. -/
def responsesFold (responses : List (String × String)) :
    List (String × ℚ) × Nat :=
  responses.foldl foldStep ([], 1)

/-- The `nodeUpdates` record built by the `model_responses` listener. -/
def nodeUpdates (responses : List (String × String)) : List (String × ℚ) :=
  (responsesFold responses).1

/-- The `setNodes` call of the `model_responses` listener: only performed
when `nodeUpdates` is non-empty, and each node takes its update when one
exists (`!== undefined`) and keeps its old value otherwise. -/
def applyNodeUpdates (upd : List (String × ℚ)) (nodes : List Node) : List Node :=
  if upd = [] then nodes
  else nodes.map fun n =>
    { n with value := match upd.lookup n.id with
                      | some p => some p
                      | none => n.value }

/-- Effective stage name: `data.data?.name || "unknown"` (the empty string
is falsy in JavaScript). -/
def effectiveStageName (p : StagePayload) : String :=
  match p.name with
  | some n => if n = "" then "unknown" else n
  | none => "unknown"

/-- Effective stage description: `data.data?.description || ""`. -/
def effectiveDescription (p : StagePayload) : String :=
  match p.description with
  | some d => d
  | none => ""

/-- Message of the stage log entry: `Stage: ${description || stageName}`. -/
def stageLogMessage (p : StagePayload) : String :=
  "Stage: " ++
    (if effectiveDescription p = "" then effectiveStageName p
     else effectiveDescription p)

/-- The statistics listeners' `setStats` updater: spread the previous
record, then write all three fields from the payload (a field missing from
the payload writes `undefined`, i.e. `none`).  `finalResult` is the only
field the spread preserves. -/
def mergeStats (u : StatsPayload) (prev : StreamStats) : StreamStats :=
  { prev with
      aggregatedPrice := u.aggregated_price
      standardDeviation := u.standard_deviation
      confidence := u.confidence }

/-- The statistics listeners' aggregator-node update, guarded by the
truthiness test `if (stats.aggregated_price)`: skipped when the price is
absent or zero (zero is falsy in JavaScript). -/
def updateAggregatorNode (ap : Option ℚ) (nodes : List Node) : List Node :=
  match ap with
  | some p =>
    if p = 0 then nodes
    else nodes.map fun n =>
      if n.id == "aggregator" then { n with value := some p } else n
  | none => nodes

/-- Rendering of `x.toFixed(2)` for an exact rational: round to cents and
print with two decimals (ties round up, which agrees with `toFixed` on the
non-negative prices this reducer formats). -/
def toFixed2 (q : ℚ) : String :=
  let n : ℤ := round (q * 100)
  let m := n.natAbs
  (if n < 0 then "-" else "") ++ toString (m / 100) ++ "." ++
    (if m % 100 < 10 then "0" else "") ++ toString (m % 100)

/-- The `${price?.toFixed(2) || "unknown"}` fragment of the statistics log
messages (a formatted price is never the empty string, so never falsy). -/
def priceText (ap : Option ℚ) : String :=
  match ap with
  | some p => toFixed2 p
  | none => "unknown"

/-- Severity chosen by the `log` listener from `data.data?.color ||
"default"`: red, yellow and green map to error, warning and success, any
other color (a missing one included) maps to info. -/
def colorToType (color : Option String) : LogType :=
  match color with
  | some c =>
    if c = "red" then .error
    else if c = "yellow" then .warning
    else if c = "green" then .success
    else .info
  | none => .info

/-- The `log` listener's message: `data.data?.message || ""`. -/
def effMessage (m : Option String) : String :=
  m.getD ""

/-- The `error` listener's message: `data.data?.message || "Unknown
error"`. -/
def errMessage (m : Option String) : String :=
  match m with
  | some s => if s = "" then "Unknown error" else s
  | none => "Unknown error"

/-- One listener dispatch: the new state plus the `console.error` entries
the listener emitted.  Each case is the body of the corresponding
`eventSource.addEventListener` callback; the `none`-payload cases are the
`catch` blocks reached when `JSON.parse` throws on a malformed payload. -/
def applyEvent (ts : String) (e : RawEvent) (s : AppState) :
    AppState × List ConsoleEntry :=
  match e with
  | .connect =>
    ({ s with
        currentStage := "connected"
        logs := addLog "Connected to appraisal stream" .success ts s.logs }, [])
  | .stage none =>
    (s, [{ severity := .error, message := "Error parsing stage event" }])
  | .stage (some p) =>
    let stageName := effectiveStageName p
    let s1 := { s with
                  currentStage := stageName
                  logs := addLog (stageLogMessage p) .info ts s.logs }
    if jsIncludes stageName "query" || (stageName == "initial_round") then
      ({ s1 with
          nodes := s1.nodes.map fun n => { n with active := n.id.startsWith "llm" }
          connections := s1.connections.map fun c => { c with active := false } }, [])
    else if jsIncludes stageName "aggregat" || (stageName == "improvement_round") then
      ({ s1 with
          nodes := s1.nodes.map fun n => { n with active := n.id == "aggregator" }
          connections := s1.connections.map fun c => { c with active := true } }, [])
    else if stageName == "complete" then
      ({ s1 with
          nodes := s1.nodes.map fun n => { n with active := true }
          connections := s1.connections.map fun c => { c with active := true } }, [])
    else (s1, [])
  | .model_responses none =>
    (s, [{ severity := .error, message := "Error parsing model_responses event" }])
  | .model_responses (some rs) =>
    let upd := nodeUpdates rs
    ({ s with
        nodes := applyNodeUpdates upd s.nodes
        logs := addLog ("Received responses from " ++ toString rs.length ++ " models")
                  .info ts s.logs }, [])
  | .initial_statistics none =>
    (s, [{ severity := .error, message := "Error parsing initial_statistics event" }])
  | .initial_statistics (some u) =>
    ({ s with
        stats := mergeStats u s.stats
        nodes := updateAggregatorNode u.aggregated_price s.nodes
        logs := addLog ("Initial consensus: $" ++ priceText u.aggregated_price)
                  .info ts s.logs }, [])
  | .final_statistics none =>
    (s, [{ severity := .error, message := "Error parsing final_statistics event" }])
  | .final_statistics (some u) =>
    ({ s with
        stats := mergeStats u s.stats
        nodes := updateAggregatorNode u.aggregated_price s.nodes
        logs := addLog ("Final consensus: $" ++ priceText u.aggregated_price)
                  .success ts s.logs }, [])
  | .final_result none =>
    (s, [{ severity := .error, message := "Error parsing final_result event" }])
  | .final_result (some r) =>
    ({ s with
        stats := { s.stats with finalResult := some r }
        logs := addLog ("Appraisal complete: $" ++ priceText r.price)
                  .success ts s.logs }, [])
  | .log none =>
    (s, [{ severity := .error, message := "Error parsing log event" }])
  | .log (some p) =>
    ({ s with
        logs := addLog (effMessage p.message) (colorToType p.color) ts s.logs }, [])
  | .error none =>
    ({ s with
        logs := addLog "An error occurred in the appraisal process" .error ts s.logs },
     [{ severity := .error, message := "Error parsing error event" }])
  | .error (some p) =>
    ({ s with
        logs := addLog ("Error: " ++ errMessage p.message) .error ts s.logs }, [])
  | .process_end =>
    ({ s with
        logs := addLog "Process completed" .success ts s.logs
        conn := none }, [])

/-- Delivery of an event arriving on the `EventSource` with handle `h`: a
source that is no longer the live one (closed, or replaced by a newer
session) dispatches nothing, so the state is untouched. -/
def deliver (h : Nat) (ts : String) (e : RawEvent) (s : AppState) :
    AppState × List ConsoleEntry :=
  if s.conn = some h then applyEvent ts e s else (s, [])

/-- Closing the current connection (`eventSource.close();
eventSourceRef.current = null`), as done by the `useEffect` cleanup. -/
def closeConn (s : AppState) : AppState :=
  { s with conn := none }

/-- The reset block at the top of the `useEffect` body: deactivate and
clear every node and connection, empty the logs and stats, set the stage
to `"connecting"`. -/
def resetContainers (s : AppState) : AppState :=
  { s with
      nodes := s.nodes.map fun n => { n with active := false, value := none }
      connections := s.connections.map fun c => { c with active := false, value := none }
      logs := []
      stats := {}
      currentStage := "connecting" }

/-- The connecting log message written after the reset. -/
def connectMsg (ca ti : String) : String :=
  "Connecting to appraisal stream for " ++ ca ++ ":" ++ ti ++ "..."

/-- The whole parameter-change path: the previous effect's cleanup closes
the old connection, then the new effect body resets the four state
containers, logs the connecting message and opens the new `EventSource`
(handle `hNew`). -/
def restartSession (hNew : Nat) (ts ca ti : String) (s : AppState) : AppState :=
  let s1 := resetContainers (closeConn s)
  let s2 := { s1 with logs := addLog (connectMsg ca ti) .info ts s1.logs }
  { s2 with conn := some hNew }

/-- Sequential appends through `addLog`, oldest request first (used to
state the ring-buffer property). -/
def appendAll (reqs : List LogEntry) (init : List LogEntry) : List LogEntry :=
  reqs.foldl (fun l e => addLog e.message e.type e.timestamp l) init

/-! ## Derived notions used by the statements -/

/-- The prices successfully extracted from the responses, in encounter
order (a response with no numeric match contributes nothing). -/
def parsedPrices (rs : List (String × String)) : List ℚ :=
  rs.filterMap fun pr => extractPrice pr.2

/-- Consecutive node names `llm i, llm (i+1), ...` paired with a price
list: the shape the `model_responses` update record must take. -/
def numberFrom (i : Nat) : List ℚ → List (String × ℚ)
  | [] => []
  | p :: ps => ("llm" ++ toString i, p) :: numberFrom (i + 1) ps

/-- The events whose listener reaches its `catch` block because the
payload was unparseable: one per label whose listener calls `JSON.parse`
(the `connect` and `process_end` listeners read no payload, so no decode
failure exists for them). -/
def decodeFailureEvents : List RawEvent :=
  [.stage none, .model_responses none, .initial_statistics none,
   .final_statistics none, .final_result none, .log none, .error none]

/-- Twenty-one log requests, used to witness the ring-buffer bound. -/
def sampleLogReqs : List LogEntry :=
  (List.range 21).map fun i =>
    { message := toString i, type := .info, timestamp := "t" }

/-! ## Helper lemmas -/

/-- Rewriting a node's value by itself is the identity. -/
lemma value_eta (n : Node) : ({ n with value := n.value } : Node) = n := rfl

/-- The string `"aggregator"` never equals an `llm`-prefixed node name. -/
lemma aggregator_ne_llm (t : String) : ("aggregator" == "llm" ++ t) = false := by
  apply beq_eq_false_iff_ne.mpr
  intro h
  have hd := congrArg String.data h
  rw [String.data_append] at hd
  simp at hd

/-- Length of the numbered update record. -/
lemma length_numberFrom (i : Nat) (ps : List ℚ) :
    (numberFrom i ps).length = ps.length := by
  induction ps generalizing i with
  | nil => rfl
  | cons p ps ih => simp [numberFrom, ih]

/-- The update record never carries a key for the aggregator node. -/
lemma lookup_numberFrom_aggregator (i : Nat) (ps : List ℚ) :
    (numberFrom i ps).lookup "aggregator" = none := by
  induction ps generalizing i with
  | nil => rfl
  | cons p ps ih => simp [numberFrom, List.lookup, aggregator_ne_llm, ih]

/-- Invariant of the `model_responses` loop: folding from a record `acc`
and index `i ≥ 1` appends exactly the first `4 - i` extracted prices,
numbered consecutively from `i`. -/
lemma foldl_foldStep (rs : List (String × String)) :
    ∀ (acc : List (String × ℚ)) (i : Nat), 1 ≤ i →
    rs.foldl foldStep (acc, i) =
      (acc ++ numberFrom i ((parsedPrices rs).take (4 - i)),
       i + ((parsedPrices rs).take (4 - i)).length) := by
  induction rs with
  | nil => intro acc i hi; simp [parsedPrices, numberFrom]
  | cons pr rest ih =>
    intro acc i hi
    simp only [List.foldl_cons]
    cases hep : extractPrice pr.2 with
    | none =>
      have hstep : foldStep (acc, i) pr = (acc, i) := by simp [foldStep, hep]
      rw [hstep]
      simp only [parsedPrices, List.filterMap_cons, hep]
      exact ih acc i hi
    | some p =>
      by_cases h3 : i ≤ 3
      · have hstep : foldStep (acc, i) pr = (acc ++ [("llm" ++ toString i, p)], i + 1) := by
          simp [foldStep, hep, h3]
        rw [hstep]
        have h4 : 4 - i = (4 - (i + 1)) + 1 := by omega
        rw [ih (acc ++ [("llm" ++ toString i, p)]) (i + 1) (by omega)]
        simp only [parsedPrices, List.filterMap_cons, hep, h4, List.take_succ_cons,
          numberFrom, List.length_cons, Prod.mk.injEq]
        constructor
        · simp [List.append_assoc]
        · omega
      · have hstep : foldStep (acc, i) pr = (acc, i) := by simp [foldStep, hep, h3]
        rw [hstep]
        have h4 : 4 - i = 0 := by omega
        rw [ih acc i hi]
        simp [parsedPrices, List.filterMap_cons, hep, h4, numberFrom]

/-- The `nodeUpdates` record is exactly the first three extracted prices
assigned to `llm1`, `llm2`, `llm3` in encounter order. -/
lemma nodeUpdates_eq (rs : List (String × String)) :
    nodeUpdates rs = numberFrom 1 ((parsedPrices rs).take 3) := by
  have h := foldl_foldStep rs [] 1 (by norm_num)
  simpa [nodeUpdates, responsesFold] using congrArg Prod.fst h

/-- The node list produced by the `model_responses` listener, with the
`nodeUpdates`-nonempty guard folded away: every node takes its update
when one exists and keeps its previous value otherwise. -/
lemma model_responses_nodes_eq (ts : String) (rs : List (String × String)) (s : AppState) :
    (applyEvent ts (.model_responses (some rs)) s).1.nodes =
      s.nodes.map fun n =>
        { n with value := ((nodeUpdates rs).lookup n.id).elim n.value some } := by
  simp only [applyEvent, applyNodeUpdates]
  by_cases hu : nodeUpdates rs = []
  · simp [hu, value_eta]
  · simp only [hu, if_false]
    apply List.map_congr_left
    intro n _
    cases h : (nodeUpdates rs).lookup n.id <;> simp [h]

/-- Truncating at 20 swallows an inner truncation at 19 placed behind one
extra element. -/
lemma take_absorb (pre : List LogEntry) (e : LogEntry) (init : List LogEntry) :
    (pre ++ e :: init.take 19).take 20 = (pre ++ e :: init).take 20 := by
  rw [List.take_append_eq_append_take, List.take_append_eq_append_take]
  congr 1
  rcases Nat.eq_zero_or_pos (20 - pre.length) with h | h
  · simp [h]
  · obtain ⟨j, hj⟩ : ∃ j, 20 - pre.length = j + 1 := ⟨20 - pre.length - 1, by omega⟩
    rw [hj]
    simp only [List.take_succ_cons, List.take_take]
    have : min j 19 = j := by omega
    rw [this]

/-- Running any request sequence through `addLog` from a buffer within
capacity leaves the newest 20 entries, newest first. -/
lemma appendAll_eq_take (reqs : List LogEntry) :
    ∀ (init : List LogEntry), init.length ≤ 20 →
    appendAll reqs init = (reqs.reverse ++ init).take 20 := by
  induction reqs with
  | nil =>
    intro init h
    simp only [appendAll, List.foldl_nil, List.reverse_nil, List.nil_append]
    exact (List.take_of_length_le h).symm
  | cons e rest ih =>
    intro init h
    have hstep : appendAll (e :: rest) init = appendAll rest (e :: init.take 19) := rfl
    rw [hstep, ih (e :: init.take 19) (by simp)]
    rw [List.reverse_cons, List.append_assoc]
    simpa using take_absorb rest.reverse e init

/-- Deactivating and clearing a node list of the same shape (identities
and positions) as a deactivated, cleared reference list recreates the
reference list. -/
lemma resetNodes_of_shape :
    ∀ (l l₀ : List Node), (∀ n ∈ l₀, n.active = false ∧ n.value = none) →
    l.map (fun n => (n.id, n.x, n.y)) = l₀.map (fun n => (n.id, n.x, n.y)) →
    l.map (fun n => { n with active := false, value := none }) = l₀ := by
  intro l
  induction l with
  | nil =>
    intro l₀ _ h
    cases l₀ with
    | nil => rfl
    | cons b r => simp at h
  | cons a rest ih =>
    intro l₀ hprop h
    cases l₀ with
    | nil => simp at h
    | cons b rest₀ =>
      simp only [List.map_cons, List.cons.injEq, Prod.mk.injEq] at h
      obtain ⟨⟨h1, h2, h3⟩, hrest⟩ := h
      obtain ⟨hb1, hb2⟩ := hprop b (by simp)
      have hhead : ({ a with active := false, value := none } : Node) = b := by
        cases b
        simp_all
      simp only [List.map_cons, hhead]
      rw [ih rest₀ (fun n hn => hprop n (by simp [hn])) hrest]

/-- The connection-list analogue of `resetNodes_of_shape`. -/
lemma resetConnections_of_shape :
    ∀ (l l₀ : List Connection), (∀ c ∈ l₀, c.active = false ∧ c.value = none) →
    l.map (fun c => (c.«from», c.«to»)) = l₀.map (fun c => (c.«from», c.«to»)) →
    l.map (fun c => { c with active := false, value := none }) = l₀ := by
  intro l
  induction l with
  | nil =>
    intro l₀ _ h
    cases l₀ with
    | nil => rfl
    | cons b r => simp at h
  | cons a rest ih =>
    intro l₀ hprop h
    cases l₀ with
    | nil => simp at h
    | cons b rest₀ =>
      simp only [List.map_cons, List.cons.injEq, Prod.mk.injEq] at h
      obtain ⟨⟨h1, h2⟩, hrest⟩ := h
      obtain ⟨hb1, hb2⟩ := hprop b (by simp)
      have hhead : ({ a with active := false, value := none } : Connection) = b := by
        cases b
        simp_all
      simp only [List.map_cons, hhead]
      rw [ih rest₀ (fun n hn => hprop n (by simp [hn])) hrest]

/-! ## Behaviour checks on concrete inputs -/

/-- The spec's worked example: `42.5` is extracted from free text. -/
example : extractPrice "Estimated value: 42.5 ETH" = some (85 / 2) := by
  with_unfolding_all rfl

/-- A response with no digits yields no value (never zero). -/
example : extractPrice "no numeric content" = none := by
  with_unfolding_all rfl

/-- The spec's worked example: parseable responses populate `llm1` and
`llm2` in encounter order, the unparseable one is skipped. -/
example :
    nodeUpdates
      [("m1", "Estimated value: 42.5 ETH"), ("m2", "no numeric content"), ("m3", "17")] =
    [("llm1", 85 / 2), ("llm2", 17)] := by
  with_unfolding_all rfl

/-- At most three responses are assigned, even when five parse. -/
example :
    nodeUpdates [("a", "1"), ("b", "2"), ("c", "3"), ("d", "4"), ("e", "5")] =
    [("llm1", 1), ("llm2", 2), ("llm3", 3)] := by
  with_unfolding_all rfl

/-! ## The claims -/

/-- C1, counterexample.  A `final_statistics` payload carrying only
`aggregated_price` does NOT preserve a previously stored
`standardDeviation`: the spread `{...prev, standardDeviation:
stats.standard_deviation}` overwrites it with `undefined`, so the stored
value 5 is lost, contradicting "every field absent from the update payload
leaves the corresponding accumulator field unchanged". -/
theorem C1_absent_field_lost :
    (({ initialState with stats := { standardDeviation := some 5 } } : AppState).stats.standardDeviation
       = some 5) ∧
    ((applyEvent "t" (.final_statistics (some { aggregated_price := some 10 }))
        { initialState with stats := { standardDeviation := some 5 } }).1.stats.standardDeviation
       = none) :=
  ⟨rfl, rfl⟩

/-- C1, amended.  The statistics merge performed by the
`initial_statistics` and `final_statistics` handlers overwrites all three
handler-managed fields with the payload's values: a field present in the
payload overwrites the accumulator field, and a field absent from the
payload resets the accumulator field to unset (it is not preserved).  Only
`finalResult`, which the handlers never mention, is preserved by the
spread. -/
theorem C1_statistics_merge_overwrites (ts : String) (u : StatsPayload) (s : AppState) :
    ((applyEvent ts (.initial_statistics (some u)) s).1.stats =
       { aggregatedPrice := u.aggregated_price
         standardDeviation := u.standard_deviation
         confidence := u.confidence
         finalResult := s.stats.finalResult }) ∧
    ((applyEvent ts (.final_statistics (some u)) s).1.stats =
       { aggregatedPrice := u.aggregated_price
         standardDeviation := u.standard_deviation
         confidence := u.confidence
         finalResult := s.stats.finalResult }) :=
  ⟨rfl, rfl⟩

/-- C2, evaluation at the failing input.  A `final_statistics` event whose
payload carries `aggregated_price = 0` stores 0 in the accumulator, but
the aggregator node's value is NOT updated (the node list is unchanged,
the aggregator's value still unset): the guard `if
(stats.aggregated_price)` treats the valid price 0 as falsy, contradicting
the claim (and spec section 9 flags exactly this falsy-zero conflation in
the source as a likely latent bug). -/
theorem C2_zero_price_skips_node_update :
    ((applyEvent "t" (.final_statistics (some { aggregated_price := some 0 }))
        initialState).1.stats.aggregatedPrice = some 0) ∧
    ((applyEvent "t" (.final_statistics (some { aggregated_price := some 0 }))
        initialState).1.nodes = initialNodes) := by
  constructor
  · rfl
  · simp [applyEvent, updateAggregatorNode, initialState]

/-- C3.  For every recognized event label whose listener parses a payload
(`stage`, `model_responses`, `initial_statistics`, `final_statistics`,
`final_result`, `log`, `error` — the `connect` and `process_end` listeners
read no payload, so no decode failure exists for them), a malformed
payload never throws past the decoder boundary: the listener is total, an
error-severity log entry is emitted (`console.error`, and for the `error`
label additionally a generic entry in the UI log), the connection is not
closed, and every field update of the event is skipped — topology,
statistics and stage state are unchanged, and the UI log is unchanged
except for the `error` label's generic entry. -/
theorem C3_decode_failure_isolated (ts : String) (s : AppState) (e : RawEvent)
    (he : e ∈ decodeFailureEvents) :
    (applyEvent ts e s).1.nodes = s.nodes ∧
    (applyEvent ts e s).1.connections = s.connections ∧
    (applyEvent ts e s).1.stats = s.stats ∧
    (applyEvent ts e s).1.currentStage = s.currentStage ∧
    (applyEvent ts e s).1.conn = s.conn ∧
    ((applyEvent ts e s).2 ≠ [] ∧ ∀ c ∈ (applyEvent ts e s).2, c.severity = .error) ∧
    ((applyEvent ts e s).1.logs = s.logs ∨
     (applyEvent ts e s).1.logs =
       addLog "An error occurred in the appraisal process" .error ts s.logs) := by
  simp only [decodeFailureEvents, List.mem_cons] at he
  rcases he with rfl | rfl | rfl | rfl | rfl | rfl | rfl | he <;>
    simp_all [applyEvent]

/-- C3, witness at a concrete input: a malformed `stage` payload on the
initial state. -/
theorem C3_decode_failure_isolated_witness :
    (RawEvent.stage none ∈ decodeFailureEvents) ∧
    ((applyEvent "t" (.stage none) initialState).1.nodes = initialState.nodes ∧
     (applyEvent "t" (.stage none) initialState).1.connections = initialState.connections ∧
     (applyEvent "t" (.stage none) initialState).1.stats = initialState.stats ∧
     (applyEvent "t" (.stage none) initialState).1.currentStage = initialState.currentStage ∧
     (applyEvent "t" (.stage none) initialState).1.conn = initialState.conn ∧
     ((applyEvent "t" (.stage none) initialState).2 ≠ [] ∧
      ∀ c ∈ (applyEvent "t" (.stage none) initialState).2, c.severity = .error) ∧
     ((applyEvent "t" (.stage none) initialState).1.logs = initialState.logs ∨
      (applyEvent "t" (.stage none) initialState).1.logs =
        addLog "An error occurred in the appraisal process" .error "t" initialState.logs)) :=
  ⟨by simp [decodeFailureEvents],
   C3_decode_failure_isolated "t" initialState (.stage none) (by simp [decodeFailureEvents])⟩

/-- C4.  The log buffer never exceeds 20 entries and is ordered
most-recent-first: one `addLog` call prepends the new entry to the first
19 old ones (so the result is bounded by 20 whatever the input), and a
sequence of more than 20 appends starting from the empty buffer leaves
exactly the 20 most recent entries, newest first. -/
theorem C4_log_ring_buffer (message : String) (type : LogType) (ts : String)
    (l : List LogEntry) (reqs : List LogEntry) (hn : 20 < reqs.length) :
    (addLog message type ts l).length ≤ 20 ∧
    addLog message type ts l =
      { message := message, type := type, timestamp := ts } :: l.take 19 ∧
    appendAll reqs [] = reqs.reverse.take 20 := by
  refine ⟨?_, rfl, ?_⟩
  · simp [addLog]
  · simpa using appendAll_eq_take reqs [] (by simp)

/-- C4, witness: 21 concrete appends into an empty buffer. -/
theorem C4_log_ring_buffer_witness :
    (20 < sampleLogReqs.length) ∧
    ((addLog "a" .info "t" []).length ≤ 20 ∧
     addLog "a" .info "t" [] =
       { message := "a", type := .info, timestamp := "t" } :: ([] : List LogEntry).take 19 ∧
     appendAll sampleLogReqs [] = sampleLogReqs.reverse.take 20) :=
  ⟨by decide, C4_log_ring_buffer "a" .info "t" [] sampleLogReqs (by decide)⟩

/-- C5.  On every decoded `stage` event the handler is total (no stage
name throws), the stage label always becomes the effective stage name and
a log entry is appended, statistics and connection handle are untouched,
and activation dispatches on the name with the listener's first-match
precedence: a name containing "query" or equal to "initial_round"
activates exactly the nodes whose identity has the "llm" prefix (the three
model nodes) and deactivates every edge; otherwise a name containing
"aggregat" or equal to "improvement_round" activates only the aggregator
node and every edge; otherwise the name "complete" activates every node
and every edge; any other name leaves every node and edge — activation
flags and values — unchanged. -/
theorem C5_stage_dispatch (ts : String) (p : StagePayload) (s : AppState) :
    (applyEvent ts (.stage (some p)) s).1.currentStage = effectiveStageName p ∧
    (applyEvent ts (.stage (some p)) s).1.logs = addLog (stageLogMessage p) .info ts s.logs ∧
    (applyEvent ts (.stage (some p)) s).1.stats = s.stats ∧
    (applyEvent ts (.stage (some p)) s).1.conn = s.conn ∧
    (if jsIncludes (effectiveStageName p) "query" || (effectiveStageName p == "initial_round") then
       (applyEvent ts (.stage (some p)) s).1.nodes =
           s.nodes.map (fun n => { n with active := n.id.startsWith "llm" }) ∧
       (applyEvent ts (.stage (some p)) s).1.connections =
           s.connections.map (fun c => { c with active := false })
     else if jsIncludes (effectiveStageName p) "aggregat" || (effectiveStageName p == "improvement_round") then
       (applyEvent ts (.stage (some p)) s).1.nodes =
           s.nodes.map (fun n => { n with active := n.id == "aggregator" }) ∧
       (applyEvent ts (.stage (some p)) s).1.connections =
           s.connections.map (fun c => { c with active := true })
     else if effectiveStageName p == "complete" then
       (applyEvent ts (.stage (some p)) s).1.nodes =
           s.nodes.map (fun n => { n with active := true }) ∧
       (applyEvent ts (.stage (some p)) s).1.connections =
           s.connections.map (fun c => { c with active := true })
     else
       (applyEvent ts (.stage (some p)) s).1.nodes = s.nodes ∧
       (applyEvent ts (.stage (some p)) s).1.connections = s.connections) := by
  by_cases h1 : (jsIncludes (effectiveStageName p) "query" || (effectiveStageName p == "initial_round")) = true
  · simp [applyEvent, h1]
  · by_cases h2 : (jsIncludes (effectiveStageName p) "aggregat" || (effectiveStageName p == "improvement_round")) = true
    · simp [applyEvent, h1, h2]
    · by_cases h3 : (effectiveStageName p == "complete") = true
      · simp [applyEvent, h1, h2, h3]
      · simp [applyEvent, h1, h2, h3]

/-- C6.  For every decoded `model_responses` event, responses are scanned
in encounter order; the first decimal substring of each response is
extracted; the update record is exactly the first three successfully
parsed values assigned to `llm1`, `llm2`, `llm3` in the order parseable
responses are encountered (an unparseable response consumes no slot), so
at most 3 assignments occur; and the new node list gives each node its
newly parsed value when one exists and its previous (possibly unset) value
otherwise — a node never receives a zero it did not parse. -/
theorem C6_model_responses_assignment (ts : String) (rs : List (String × String)) (s : AppState) :
    nodeUpdates rs = numberFrom 1 ((parsedPrices rs).take 3) ∧
    (nodeUpdates rs).length ≤ 3 ∧
    (applyEvent ts (.model_responses (some rs)) s).1.nodes =
      s.nodes.map fun n =>
        { n with value := ((nodeUpdates rs).lookup n.id).elim n.value some } := by
  refine ⟨nodeUpdates_eq rs, ?_, model_responses_nodes_eq ts rs s⟩
  rw [nodeUpdates_eq, length_numberFrom, List.length_take]
  omega

/-- C7.  A `process_end` event delivered on the live handle closes the
connection, and once closed, delivering any further event on any handle —
the now-dead one included — returns the state unchanged (no node, edge,
statistics, log or stage mutation) and emits nothing. -/
theorem C7_process_end_closes_session (h hx : Nat) (ts tsx : String) (e : RawEvent)
    (s : AppState) (hc : s.conn = some h) :
    (deliver h ts .process_end s).1.conn = none ∧
    deliver hx tsx e (deliver h ts .process_end s).1 =
      ((deliver h ts .process_end s).1, []) := by
  constructor
  · simp [deliver, hc, applyEvent]
  · simp [deliver, hc, applyEvent]

/-- C7, witness: a session open on handle 0 receives `process_end`, then a
synthetic `connect` on handle 5 is not applied. -/
theorem C7_process_end_closes_session_witness :
    (({ initialState with conn := some 0 } : AppState).conn = some 0) ∧
    ((deliver 0 "t" .process_end { initialState with conn := some 0 }).1.conn = none ∧
     deliver 5 "u" .connect (deliver 0 "t" .process_end { initialState with conn := some 0 }).1 =
       ((deliver 0 "t" .process_end { initialState with conn := some 0 }).1, [])) :=
  ⟨rfl, C7_process_end_closes_session 0 5 "t" "u" .connect
          { initialState with conn := some 0 } rfl⟩

/-- C8.  When an identifying parameter changes, the old connection is
closed first, so a callback on the old handle mutates nothing; the reset
block then restores all four state containers to their initial
empty/inactive values (for any session whose node and connection lists
still have the initial identities and positions — they always do, since no
listener changes them); the full restart equals that reset state plus the
connecting log entry and the fresh handle; and events on the old handle
are also inert after the new session opens. -/
theorem C8_param_change_resets (hOld hNew : Nat) (ts ca ti ts2 : String) (e : RawEvent)
    (s : AppState) (hno : hOld ≠ hNew)
    (hns : s.nodes.map (fun n => (n.id, n.x, n.y)) =
      initialNodes.map (fun n => (n.id, n.x, n.y)))
    (hcs : s.connections.map (fun c => (c.«from», c.«to»)) =
      initialConnections.map (fun c => (c.«from», c.«to»))) :
    ((closeConn s).conn = none ∧
     deliver hOld ts2 e (closeConn s) = (closeConn s, [])) ∧
    ((resetContainers (closeConn s)).nodes = initialNodes ∧
     (resetContainers (closeConn s)).connections = initialConnections ∧
     (resetContainers (closeConn s)).logs = [] ∧
     (resetContainers (closeConn s)).stats = {}) ∧
    (restartSession hNew ts ca ti s =
       { resetContainers (closeConn s) with
           logs := addLog (connectMsg ca ti) .info ts []
           conn := some hNew } ∧
     deliver hOld ts2 e (restartSession hNew ts ca ti s) =
       (restartSession hNew ts ca ti s, [])) := by
  refine ⟨⟨rfl, by simp [deliver, closeConn]⟩, ⟨?_, ?_, rfl, rfl⟩, rfl, ?_⟩
  · exact resetNodes_of_shape s.nodes initialNodes (by decide) hns
  · exact resetConnections_of_shape s.connections initialConnections (by decide) hcs
  · simp [deliver, restartSession, Ne.symm hno]

/-- C8, witness: restarting from the initial shape on handle 0 to handle
1; the old-handle `connect` callback is inert. -/
theorem C8_param_change_resets_witness :
    ((0 : Nat) ≠ 1 ∧
     initialState.nodes.map (fun n => (n.id, n.x, n.y)) =
       initialNodes.map (fun n => (n.id, n.x, n.y)) ∧
     initialState.connections.map (fun c => (c.«from», c.«to»)) =
       initialConnections.map (fun c => (c.«from», c.«to»))) ∧
    (((closeConn initialState).conn = none ∧
      deliver 0 "u" .connect (closeConn initialState) = (closeConn initialState, [])) ∧
     ((resetContainers (closeConn initialState)).nodes = initialNodes ∧
      (resetContainers (closeConn initialState)).connections = initialConnections ∧
      (resetContainers (closeConn initialState)).logs = [] ∧
      (resetContainers (closeConn initialState)).stats = {}) ∧
     (restartSession 1 "t" "ca" "ti" initialState =
        { resetContainers (closeConn initialState) with
            logs := addLog (connectMsg "ca" "ti") .info "t" []
            conn := some 1 } ∧
      deliver 0 "u" .connect (restartSession 1 "t" "ca" "ti" initialState) =
        (restartSession 1 "t" "ca" "ti" initialState, []))) :=
  ⟨⟨by decide, rfl, rfl⟩,
   C8_param_change_resets 0 1 "t" "ca" "ti" "u" .connect initialState (by decide) rfl rfl⟩

/-- C9.  The statistics merge is idempotent for repeated identical
updates: applying the same `final_statistics` payload twice in succession
yields the same statistics-accumulator state as applying it once. -/
theorem C9_final_statistics_idempotent (ts ts' : String) (u : StatsPayload) (s : AppState) :
    ((applyEvent ts' (.final_statistics (some u))
        ((applyEvent ts (.final_statistics (some u)) s).1)).1).stats =
    ((applyEvent ts (.final_statistics (some u)) s).1).stats :=
  rfl

/-- C10.  Frame conditions of a decoded `model_responses` event: edges are
untouched, node identities and activation flags are untouched, the update
record never carries a key for the aggregator node (so its value, read
through its identity, is unchanged), the new node list gives every node
its parsed update or else its previous value — in particular every model
node that receives no newly parsed value keeps its previous value, stated
pointwise at every position — and when no response parses to a number the
node list is entirely unchanged. -/
theorem C10_model_responses_frame (ts : String) (rs : List (String × String)) (s : AppState) :
    (applyEvent ts (.model_responses (some rs)) s).1.connections = s.connections ∧
    (applyEvent ts (.model_responses (some rs)) s).1.nodes.map Node.id = s.nodes.map Node.id ∧
    (applyEvent ts (.model_responses (some rs)) s).1.nodes.map Node.active =
      s.nodes.map Node.active ∧
    (nodeUpdates rs).lookup "aggregator" = none ∧
    ((applyEvent ts (.model_responses (some rs)) s).1.nodes.map
        (fun n => if n.id == "aggregator" then n.value else none) =
      s.nodes.map (fun n => if n.id == "aggregator" then n.value else none)) ∧
    ((applyEvent ts (.model_responses (some rs)) s).1.nodes =
      s.nodes.map fun n =>
        { n with value := ((nodeUpdates rs).lookup n.id).elim n.value some }) ∧
    (∀ i n, s.nodes.get? i = some n → (nodeUpdates rs).lookup n.id = none →
      ((applyEvent ts (.model_responses (some rs)) s).1.nodes.get? i).map Node.value =
        some n.value) ∧
    (parsedPrices rs = [] → (applyEvent ts (.model_responses (some rs)) s).1.nodes = s.nodes) := by
  have hmap := model_responses_nodes_eq ts rs s
  have hagg : (nodeUpdates rs).lookup "aggregator" = none := by
    rw [nodeUpdates_eq]
    exact lookup_numberFrom_aggregator 1 _
  refine ⟨rfl, ?_, ?_, hagg, ?_, hmap, ?_, ?_⟩
  · rw [hmap, List.map_map]
    rfl
  · rw [hmap, List.map_map]
    rfl
  · rw [hmap, List.map_map]
    apply List.map_congr_left
    intro n _
    by_cases hid : (n.id == "aggregator") = true
    · have hn : n.id = "aggregator" := beq_iff_eq.mp hid
      simp [Function.comp, hid, hn, hagg]
    · simp [Function.comp, hid]
  · intro i n hget hlook
    rw [hmap, List.get?_map, hget]
    simp [hlook]
  · intro hp
    rw [hmap]
    have hz : nodeUpdates rs = [] := by
      rw [nodeUpdates_eq, hp]
      rfl
    simp [hz, value_eta]

end ConsensusAnimation
